import Mathlib

/-!
Verification development for the rag-demo repository.

The development shallowly embeds the two source files of the repository:

* `assistant/__init__.py` — `stable_hash`, `get_retriever`, `format_docs`,
  `get_rag_chain`;
* `assistant/cli/create_db.py` — the `create_db` indexing command with its
  `OnMatchAction` collision policies.

Python dictionaries (document metadata) are embedded as association lists in
insertion order, where a later insertion of the same key overrides the earlier
one, exactly as in a Python `dict`.  `json.dumps(..., sort_keys=True)` is
embedded by canonicalising such a list (distinct keys, sorted) and serialising
it with the escaping rules of Python's `json` module; `hashlib.sha1` is
embedded as a concrete SHA-1 implementation over the UTF-8 bytes of that
serialisation.  External collaborators (the text splitter, the embeddings
model, the chat model, the retriever produced by the vector store) enter as
function parameters; the Chroma vector store is embedded as an explicit store
state with `upsert` / `delete` / `get` semantics, and every call the indexer
makes against it is recorded in an operation trace.
-/

namespace RagDemo

/-- Scalar JSON values as they occur in document metadata
(`Dict[str, scalar]` in the source). -/
inductive JVal : Type where
  | str (s : String)
  | int (n : Int)
  | bool (b : Bool)
  | null
deriving DecidableEq

/-- Metadata of a document: a Python `dict` built by successive insertions,
embedded as the insertion sequence.  A later pair with the same key overrides
an earlier one. -/
abbrev Meta := List (String × JVal)

/-- Lookup in a metadata dictionary: the value of the latest insertion of the
key, as in a Python `dict`. -/
def lookupLast : Meta → String → Option JVal
  | [], _ => none
  | (k', v) :: rest, k =>
    match lookupLast rest k with
    | some w => some w
    | none => if k' = k then some v else none

/-- A langchain `Document`: page content plus metadata. -/
structure Document : Type where
  page_content : String
  metadata : Meta
deriving DecidableEq

/-- Lower-case hexadecimal digit for `n < 16`. -/
def hexDigit (n : Nat) : Char :=
  if n < 10 then Char.ofNat (48 + n) else Char.ofNat (87 + n)

/-- Four lower-case hex digits of `n`, as used by `\uXXXX` escapes. -/
def hex4 (n : Nat) : String :=
  String.mk ((List.range 4).map (fun i => hexDigit ((n >>> (4 * (3 - i))) &&& 0xf)))

/-- Escaping of one character by `json.dumps` with its default
`ensure_ascii=True`: short escapes for the usual control characters, literal
output for printable ASCII, and `\uXXXX` (with surrogate pairs beyond the
basic plane) for everything else. -/
def escChar (c : Char) : String :=
  if c = '"' then "\\\""
  else if c = '\\' then "\\\\"
  else if c.toNat = 8 then "\\b"
  else if c.toNat = 9 then "\\t"
  else if c.toNat = 10 then "\\n"
  else if c.toNat = 12 then "\\f"
  else if c.toNat = 13 then "\\r"
  else if 0x20 ≤ c.toNat ∧ c.toNat ≤ 0x7e then String.mk [c]
  else if c.toNat < 0x10000 then "\\u" ++ hex4 c.toNat
  else
    "\\u" ++ hex4 (0xd800 + ((c.toNat - 0x10000) >>> 10)) ++
    "\\u" ++ hex4 (0xdc00 + ((c.toNat - 0x10000) &&& 0x3ff))

/-- JSON string literal for `s`, as produced by `json.dumps`. -/
def jsonQuote (s : String) : String :=
  "\"" ++ String.join (s.data.map escChar) ++ "\""

/-- Serialisation of a scalar value by `json.dumps`. -/
def jsonVal : JVal → String
  | .str s => jsonQuote s
  | .int n => toString n
  | .bool b => if b then "true" else "false"
  | .null => "null"

/-- The distinct keys of a metadata dictionary, sorted, as produced by
`sort_keys=True`. -/
def canonKeys (m : Meta) : List String :=
  List.insertionSort (fun a b : String => a ≤ b) ((m.map Prod.fst).dedup)

/-- The key-sorted pairs of a metadata dictionary. -/
def canonPairs (m : Meta) : List (String × Option JVal) :=
  (canonKeys m).map (fun k => (k, lookupLast m k))

/-- Embedding of `json.dumps(metadata, sort_keys=True)` with the default
separators `", "` and `": "`. -/
def jsonDumps (m : Meta) : String :=
  "\x7b" ++
    String.intercalate ", "
      ((canonPairs m).map
        (fun p =>
          jsonQuote p.1 ++ ": " ++
            (match p.2 with
             | some v => jsonVal v
             | none => "null"))) ++
  "\x7d"

/-- UTF-8 encoding of one character, as `str.encode()` produces it. -/
def utf8Bytes (c : Char) : List Nat :=
  let n := c.toNat
  if n < 0x80 then [n]
  else if n < 0x800 then [0xc0 ||| (n >>> 6), 0x80 ||| (n &&& 0x3f)]
  else if n < 0x10000 then
    [0xe0 ||| (n >>> 12), 0x80 ||| ((n >>> 6) &&& 0x3f), 0x80 ||| (n &&& 0x3f)]
  else
    [0xf0 ||| (n >>> 18), 0x80 ||| ((n >>> 12) &&& 0x3f),
     0x80 ||| ((n >>> 6) &&& 0x3f), 0x80 ||| (n &&& 0x3f)]

/-- UTF-8 bytes of a string (`str.encode()` in the source). -/
def strBytes (s : String) : List Nat :=
  s.data.flatMap utf8Bytes

/-- Left rotation of a 32-bit word. -/
def rotl (k n : Nat) : Nat :=
  ((n <<< k) ||| (n >>> (32 - k))) &&& 0xffffffff

/-- Big-endian bytes (`n` of them) of the value `v`. -/
def bytesBE (n v : Nat) : List Nat :=
  (List.range n).map (fun i => (v >>> (8 * (n - 1 - i))) &&& 0xff)

/-- SHA-1 message padding: `0x80`, zeros up to 56 mod 64, and the bit length
as eight big-endian bytes. -/
def sha1pad (msg : List Nat) : List Nat :=
  let z := (120 - ((msg.length + 1) % 64)) % 64
  msg ++ 0x80 :: (List.replicate z 0 ++ bytesBE 8 (8 * msg.length))

/-- Split a byte list into 64-byte chunks. -/
def chunksOf64 : List Nat → List (List Nat)
  | [] => []
  | a :: rest => ((a :: rest).take 64) :: chunksOf64 ((a :: rest).drop 64)
termination_by l => l.length
decreasing_by simp [List.length_drop]; omega

/-- The sixteen big-endian 32-bit words of a 64-byte chunk. -/
def wordsOfChunk (c : List Nat) : List Nat :=
  (List.range 16).map
    (fun i =>
      (c.getD (4 * i) 0) <<< 24 ||| (c.getD (4 * i + 1) 0) <<< 16 |||
        (c.getD (4 * i + 2) 0) <<< 8 ||| c.getD (4 * i + 3) 0)

/-- Extension of the sixteen schedule words to eighty. -/
def extendWords (ws : List Nat) : List Nat :=
  (List.range 64).foldl
    (fun acc _ =>
      acc ++
        [rotl 1
          ((acc.getD (acc.length - 3) 0) ^^^ (acc.getD (acc.length - 8) 0) ^^^
            (acc.getD (acc.length - 14) 0) ^^^ (acc.getD (acc.length - 16) 0))])
    ws

/-- One SHA-1 round: state `(a, b, c, d, e)` updated with round index `i` and
schedule word `w`. -/
def sha1round (st : Nat × Nat × Nat × Nat × Nat) (iw : Nat × Nat) :
    Nat × Nat × Nat × Nat × Nat :=
  let (a, b, c, d, e) := st
  let (i, w) := iw
  let f :=
    if i < 20 then (b &&& c) ||| ((b ^^^ 0xffffffff) &&& d)
    else if i < 40 then b ^^^ c ^^^ d
    else if i < 60 then (b &&& c) ||| (b &&& d) ||| (c &&& d)
    else b ^^^ c ^^^ d
  let k :=
    if i < 20 then 0x5a827999
    else if i < 40 then 0x6ed9eba1
    else if i < 60 then 0x8f1bbcdc
    else 0xca62c1d6
  let temp := (rotl 5 a + f + e + k + w) % 0x100000000
  (temp, a, rotl 30 b, c, d)

/-- Process one 64-byte chunk, updating the five hash words. -/
def sha1chunk (h : Nat × Nat × Nat × Nat × Nat) (c : List Nat) :
    Nat × Nat × Nat × Nat × Nat :=
  let ws := extendWords (wordsOfChunk c)
  let r := ((List.range 80).zip ws).foldl sha1round h
  ((h.1 + r.1) % 0x100000000, (h.2.1 + r.2.1) % 0x100000000,
   (h.2.2.1 + r.2.2.1) % 0x100000000, (h.2.2.2.1 + r.2.2.2.1) % 0x100000000,
   (h.2.2.2.2 + r.2.2.2.2) % 0x100000000)

/-- Eight lower-case hex digits of a 32-bit word. -/
def toHex8 (v : Nat) : List Char :=
  (List.range 8).map (fun i => hexDigit ((v >>> (4 * (7 - i))) &&& 0xf))

/-- Hex rendering of a final SHA-1 state. -/
def sha1hexOfState (s : Nat × Nat × Nat × Nat × Nat) : String :=
  String.mk
    (toHex8 s.1 ++ toHex8 s.2.1 ++ toHex8 s.2.2.1 ++ toHex8 s.2.2.2.1 ++
      toHex8 s.2.2.2.2)

/-- SHA-1 hex digest of a byte list
(`hashlib.sha1(bytes).hexdigest()`). -/
def sha1hexOfBytes (msg : List Nat) : String :=
  sha1hexOfState
    ((chunksOf64 (sha1pad msg)).foldl sha1chunk
      (0x67452301, 0xefcdab89, 0x98badcfe, 0x10325476, 0xc3d2e1f0))

/-- Embedding of `stable_hash` from `assistant/__init__.py`:
`hashlib.sha1(json.dumps(doc.metadata, sort_keys=True).encode()).hexdigest()`. -/
def stable_hash (doc : Document) : String :=
  sha1hexOfBytes (strBytes (jsonDumps doc.metadata))

/-- The `source` value of a document's metadata (`doc.metadata["source"]`);
`none` models the `KeyError` case of a missing key. -/
def docSource (d : Document) : Option JVal :=
  lookupLast d.metadata "source"

/-- An entry of the Chroma collection: stored id, text and metadata
(the embedding vector plays no role in any claim and is omitted). -/
structure Entry : Type where
  id : String
  text : String
  meta : Meta
deriving DecidableEq

/-- The `source` value of a stored entry's metadata. -/
def entrySource (e : Entry) : Option JVal :=
  lookupLast e.meta "source"

/-- The persisted vector store: the entries of the collection, in storage
order. -/
structure Store : Type where
  entries : List Entry
deriving DecidableEq

/-- The entry built from an id and a document, as
`add_documents(splits, ids=split_ids)` stores it. -/
def mkEntry (id : String) (d : Document) : Entry :=
  ⟨id, d.page_content, d.metadata⟩

/-- Upsert of a single document under a given id: overwrite the entry with
that id when present, append a fresh entry otherwise (Chroma `upsert`
semantics, used by `Chroma.add_documents` when ids are supplied). -/
def upsert1 (st : Store) (id : String) (d : Document) : Store :=
  if st.entries.any (fun e => e.id == id) then
    ⟨st.entries.map (fun e => if e.id == id then mkEntry id d else e)⟩
  else
    ⟨st.entries ++ [mkEntry id d]⟩

/-- Embedding of `docs_vectorstore.add_documents(splits, ids=split_ids)`:
sequential upsert of the id/document pairs. -/
def add_documents (st : Store) (pairs : List (String × Document)) : Store :=
  pairs.foldl (fun s p => upsert1 s p.1 p.2) st

/-- Embedding of `docs_vectorstore.delete(ids)`: drop every entry whose id is
listed; deleting an absent id is not an error. -/
def deleteIds (st : Store) (ids : List String) : Store :=
  ⟨st.entries.filter (fun e => decide (e.id ∉ ids))⟩

/-- Sort key used to embed Python's `sorted` over the source values: string
values sort by their JSON rendering, which on the all-string metadata of the
loader coincides with Python's string sort. -/
def sourceKey : Option JVal → String
  | none => ""
  | some v => jsonVal v

/-- Embedding of `sorted(...)` over a list of source values. -/
def sortSources (l : List (Option JVal)) : List (Option JVal) :=
  List.insertionSort (fun a b => sourceKey a ≤ sourceKey b) l

/-- Embedding of
`sorted(set(metadata["source"] for metadata in docs_vectorstore.get(...)["metadatas"]))`. -/
def indexedSources (st : Store) : List (Option JVal) :=
  sortSources ((st.entries.map entrySource).dedup)

/-- The `OnMatchAction` CLI enum of `create_db.py`. -/
inductive OnMatchAction : Type where
  | ignore
  | replace
  | fail
deriving DecidableEq

/-- The two `RuntimeError`s `create_db` can raise: the collection-existence
precondition failure, and the FAIL-policy collision failure carrying the
sorted list of already indexed sources that the error message interpolates. -/
inductive CreateDbErr : Type where
  | collectionExists
  | alreadyIndexed (sources : List (Option JVal))
deriving DecidableEq

/-- Mutating calls `create_db` issues against the persisted store. -/
inductive StoreOp : Type where
  | delete (ids : List String)
  | add (ids : List String)
  | persist
deriving DecidableEq

/-- Result of a `create_db` run: the raised error if any, the store state
after all mutations performed before returning or raising, and the trace of
store-mutating calls in order. -/
structure CreateDbResult : Type where
  err : Option CreateDbErr
  store : Store
  ops : List StoreOp
deriving DecidableEq

/-- Embedding of the tail of `create_db` (`if docs: ... split ... add ...
persist`): with a nonempty batch, split all documents, hash each split and
add them under those ids, then persist. -/
def splitAndAdd (splitter : Document → List Document) (docs : List Document)
    (st : Store) (ops : List StoreOp) : CreateDbResult :=
  if docs.isEmpty then ⟨none, st, ops⟩
  else
    ⟨none,
      add_documents st
        (((docs.flatMap splitter).map stable_hash).zip (docs.flatMap splitter)),
      ops ++ [.add ((docs.flatMap splitter).map stable_hash), .persist]⟩

/-- Embedding of the `create_db` command of `assistant/cli/create_db.py`.

External collaborators enter as parameters: `db_dir_exists` and
`collection_names` stand for `settings.docs_db_directory.exists()` and the
collection listing of the Chroma client, `splitter` for
`RecursiveCharacterTextSplitter.split_documents` on a single document, and
`docs` for the output of `DirectoryLoader.load()`.  The store `st` is the
collection addressed by the run.

The body mirrors the source order: the `exist_ok` gate first (before any
document loading, hence before `docs` or `on_match` are consulted), then the
scan of already indexed sources, then the collision policy, then the
split/hash/add/persist tail. -/
def create_db (exist_ok db_dir_exists : Bool) (collection_names : List String)
    (collection : String) (splitter : Document → List Document)
    (docs : List Document) (on_match : OnMatchAction) (st : Store) :
    CreateDbResult :=
  if ¬exist_ok ∧ db_dir_exists ∧ collection ∈ collection_names then
    ⟨some .collectionExists, st, []⟩
  else
    let indexed := indexedSources st
    match on_match with
    | .ignore =>
      splitAndAdd splitter
        (docs.filter (fun d => decide (docSource d ∉ indexed))) st []
    | .replace =>
      let del_ids :=
        (st.entries.filter
          (fun e => decide (entrySource e ∈ docs.map docSource))).map Entry.id
      splitAndAdd splitter docs (deleteIds st del_ids) [.delete del_ids]
    | .fail =>
      let matched :=
        ((docs.map docSource).filter (fun s => decide (s ∈ indexed))).dedup
      if matched.isEmpty then splitAndAdd splitter docs st []
      else ⟨some (.alreadyIndexed (sortSources matched)), st, []⟩

/-- The batch that remains after the collision policy has been applied:
IGNORE filters already indexed documents out, REPLACE and FAIL keep the batch
as loaded. -/
def postPolicyDocs (docs : List Document) (on_match : OnMatchAction)
    (st : Store) : List Document :=
  match on_match with
  | .ignore => docs.filter (fun d => decide (docSource d ∉ indexedSources st))
  | .replace => docs
  | .fail => docs

/-- The `RetrieverSearchType` literal of `assistant/__init__.py`. -/
inductive RetrieverSearchType : Type where
  | similarity
  | similarity_score_threshold
  | mmr
deriving DecidableEq

/-- Values stored in `search_kwargs`: the integers `k` and `fetch_k`, and the
floats `score_threshold` and `lambda_mult` (pure pass-through values, embedded
as rationals). -/
inductive SKVal : Type where
  | nat (n : Nat)
  | num (q : ℚ)
deriving DecidableEq

/-- The keyword arguments `get_retriever` hands to
`vectorstore.as_retriever`: the search type and the `search_kwargs` dict in
insertion order. -/
structure RetrieverKwargs : Type where
  search_type : RetrieverSearchType
  search_kwargs : List (String × SKVal)
deriving DecidableEq

/-- Embedding of `get_retriever` from `assistant/__init__.py`.  The function
only assembles the search configuration and never touches the vector store;
the store therefore is no input here.  `none` models the `AssertionError`
raised when `similarity_score_threshold` is requested without a
`score_threshold`. -/
def get_retriever (k : Option Nat) (search_type : RetrieverSearchType)
    (score_threshold : Option ℚ) (fetch_k : Option Nat)
    (lambda_mult : Option ℚ) : Option RetrieverKwargs :=
  let sk : List (String × SKVal) :=
    match k with
    | some n => [("k", SKVal.nat n)]
    | none => []
  match search_type with
  | .similarity_score_threshold =>
    match score_threshold with
    | none => none
    | some t =>
      some ⟨.similarity_score_threshold, sk ++ [("score_threshold", SKVal.num t)]⟩
  | .mmr =>
    let sk :=
      sk ++
        (match fetch_k with
         | some n => [("fetch_k", SKVal.nat n)]
         | none => [])
    let sk :=
      sk ++
        (match lambda_mult with
         | some q => [("lambda_mult", SKVal.num q)]
         | none => [])
    some ⟨.mmr, sk⟩
  | .similarity => some ⟨.similarity, sk⟩

/-- Python's `str()` on a metadata scalar, as the f-string
`f"...{doc.metadata['source']}"` renders it. -/
def pyStr : JVal → String
  | .str s => s
  | .int n => toString n
  | .bool b => if b then "True" else "False"
  | .null => "None"

/-- The blocks produced by the generator expression inside `format_docs`,
one per document in order; `none` models the `KeyError` on a document without
a `source` key. -/
def formatBlocks : List Document → Option (List String)
  | [] => some []
  | d :: ds =>
    match docSource d, formatBlocks ds with
    | some v, some bs =>
      some (("Content: " ++ d.page_content ++ "\nSource: " ++ pyStr v) :: bs)
    | _, _ => none

/-- Embedding of `format_docs` from `assistant/__init__.py`: each document is
rendered as `"Content: <text>\nSource: <source>"` and the blocks are joined
with a blank line (`"\n\n".join`). -/
def format_docs (docs : List Document) : Option String :=
  (formatBlocks docs).map (String.intercalate "\n\n")

/-- The fixed instruction template of `get_rag_chain`, filled with the
question and the formatted context block. -/
def prompt_template (question source_documents : String) : String :=
  "You are an assistant for question-answering tasks on Formula One (F1) documentation.\nGiven the following extracted parts of a long document and a question, create a final answer with used references (named \"sources\").\nKeep the answer concise. If you don't know the answer, just say that you don't know. Don't try to make up an answer.\nALWAYS return used sources in your answer.\n\nQUESTION: " ++
    question ++ "\n=========\n" ++ source_documents ++ "\n=========\nFINAL ANSWER: "

/-- The `Answer` record produced by the RAG chain: the dict
`{question, source_documents, answer}`. -/
structure Answer : Type where
  question : String
  source_documents : List Document
  answer : String
deriving DecidableEq

/-- Embedding of `rag_chain_from_docs`: format the retrieved documents,
fill the prompt template, invoke the chat model and parse its output to a
string (the parser is the identity on the text). -/
def rag_chain_from_docs (chat_model : String → String) (question : String)
    (source_documents : List Document) : Option String :=
  (format_docs source_documents).map
    (fun ctx => chat_model (prompt_template question ctx))

/-- Embedding of `get_rag_chain` applied to a question:
`RunnableParallel {source_documents: retriever, question: passthrough}`
followed by `.assign(answer=rag_chain_from_docs)`. -/
def get_rag_chain (retriever : String → List Document)
    (chat_model : String → String) (question : String) : Option Answer :=
  let source_documents := retriever question
  (rag_chain_from_docs chat_model question source_documents).map
    (fun ans => ⟨question, source_documents, ans⟩)

/-! ## Canonicalisation of metadata dictionaries -/

theorem mem_keys_iff (m : Meta) (k : String) :
    k ∈ m.map Prod.fst ↔ (lookupLast m k).isSome := by
  induction m with
  | nil => simp [lookupLast]
  | cons p rest ih =>
    obtain ⟨k', v⟩ := p
    cases h : lookupLast rest k with
    | some w =>
      simp only [List.map_cons, List.mem_cons, lookupLast, h, Option.isSome_some,
        iff_true]
      exact Or.inr (ih.mpr (by simp [h]))
    | none =>
      by_cases hk : k' = k
      · simp [lookupLast, h, hk]
      · simp only [List.map_cons, List.mem_cons, lookupLast, h]
        rw [if_neg hk]
        simp only [Option.isSome_none, Bool.false_eq_true, iff_false]
        rintro (rfl | hmem)
        · exact hk rfl
        · have h2 := ih.mp hmem
          rw [h] at h2
          simp at h2

theorem canonKeys_sorted (m : Meta) :
    (canonKeys m).Sorted (fun a b : String => a ≤ b) :=
  List.sorted_insertionSort _ _

theorem canonKeys_nodup (m : Meta) : (canonKeys m).Nodup :=
  (List.perm_insertionSort _ _).nodup_iff.mpr (List.nodup_dedup _)

theorem mem_canonKeys (m : Meta) (k : String) :
    k ∈ canonKeys m ↔ (lookupLast m k).isSome := by
  unfold canonKeys
  rw [(List.perm_insertionSort _ _).mem_iff, List.mem_dedup, mem_keys_iff]

theorem canonKeys_eq {m1 m2 : Meta}
    (h : ∀ k, lookupLast m1 k = lookupLast m2 k) :
    canonKeys m1 = canonKeys m2 := by
  apply List.eq_of_perm_of_sorted _ (canonKeys_sorted m1) (canonKeys_sorted m2)
  rw [List.perm_ext_iff_of_nodup (canonKeys_nodup m1) (canonKeys_nodup m2)]
  intro a
  rw [mem_canonKeys, mem_canonKeys, h a]

theorem canonPairs_eq {m1 m2 : Meta}
    (h : ∀ k, lookupLast m1 k = lookupLast m2 k) :
    canonPairs m1 = canonPairs m2 := by
  unfold canonPairs
  rw [canonKeys_eq h]
  exact List.map_congr_left (fun k _ => by rw [h k])

theorem length_mk (l : List Char) : (String.mk l).length = l.length := rfl

theorem toHex8_length (v : Nat) : (toHex8 v).length = 8 := by
  simp [toHex8]

theorem sha1hexOfBytes_length (msg : List Nat) :
    (sha1hexOfBytes msg).length = 40 := by
  unfold sha1hexOfBytes sha1hexOfState
  simp [length_mk, toHex8_length]

/-! ## C1 -/

/-- C1: `stable_hash` is a pure function of the key-sorted serialisation of
the metadata alone: any two documents whose metadata dictionaries agree as
mappings (whatever the text content and the key insertion order) receive the
same digest, and the digest always has the fixed length 40 of a SHA-1 hex
digest. -/
theorem stable_hash_deterministic (d1 d2 : Document)
    (h : ∀ k, lookupLast d1.metadata k = lookupLast d2.metadata k) :
    stable_hash d1 = stable_hash d2 ∧ (stable_hash d1).length = 40 := by
  refine ⟨?_, sha1hexOfBytes_length _⟩
  unfold stable_hash jsonDumps
  rw [canonPairs_eq h]

/-- Witness for C1: two documents with different texts and the same metadata
pairs inserted in opposite order hash identically, and the digest has length
40. -/
theorem stable_hash_deterministic_witness :
    (∀ k, lookupLast [("a", JVal.str "x"), ("b", JVal.int 2)] k =
        lookupLast [("b", JVal.int 2), ("a", JVal.str "x")] k) ∧
      stable_hash ⟨"text one", [("a", JVal.str "x"), ("b", JVal.int 2)]⟩ =
          stable_hash ⟨"other text", [("b", JVal.int 2), ("a", JVal.str "x")]⟩ ∧
        (stable_hash ⟨"text one", [("a", JVal.str "x"), ("b", JVal.int 2)]⟩).length = 40 := by
  have h : ∀ k, lookupLast [("a", JVal.str "x"), ("b", JVal.int 2)] k =
      lookupLast [("b", JVal.int 2), ("a", JVal.str "x")] k := by
    intro k
    by_cases ha : "a" = k <;> by_cases hb : "b" = k
    · exact absurd (ha.trans hb.symm) (by decide)
    all_goals simp [lookupLast, ha, hb]
  exact ⟨h, stable_hash_deterministic _ _ h⟩

/-! ## C6, C9 -/

/-- C6: building a retriever with search type `similarity_score_threshold`
while `score_threshold` is absent fails (the configuration is rejected while
merely assembling the search kwargs, with no vector store involved), and when
`score_threshold` is supplied it is passed into the assembled
`search_kwargs`. -/
theorem get_retriever_threshold_validation (k fetch_k : Option Nat)
    (lambda_mult : Option ℚ) :
    get_retriever k .similarity_score_threshold none fetch_k lambda_mult =
        none ∧
      ∀ t : ℚ, ∃ cfg,
        get_retriever k .similarity_score_threshold (some t) fetch_k
            lambda_mult = some cfg ∧
          ("score_threshold", SKVal.num t) ∈ cfg.search_kwargs := by
  refine ⟨rfl, fun t => ⟨_, rfl, ?_⟩⟩
  simp [List.mem_append]

/-- C9: an inapplicable argument of `get_retriever` has no effect on the
assembled configuration and is silently ignored rather than rejected:
`score_threshold` is irrelevant unless the search type is
`similarity_score_threshold` (and in that case the call still succeeds), and
`fetch_k` / `lambda_mult` are irrelevant unless the search type is `mmr`. -/
theorem get_retriever_inapplicable_args_ignored (k : Option Nat)
    (st : RetrieverSearchType) (thr thr' : Option ℚ) (fk fk' : Option Nat)
    (lm lm' : Option ℚ) :
    (st ≠ .similarity_score_threshold →
      get_retriever k st thr fk lm = get_retriever k st thr' fk lm ∧
        (get_retriever k st thr fk lm).isSome = true) ∧
    (st ≠ .mmr →
      get_retriever k st thr fk lm = get_retriever k st thr fk' lm') := by
  cases st
  · exact ⟨fun _ => ⟨rfl, rfl⟩, fun _ => rfl⟩
  · exact ⟨fun h => absurd rfl h, fun _ => rfl⟩
  · exact ⟨fun _ => ⟨rfl, rfl⟩, fun h => absurd rfl h⟩

/-- Witness for C9: under plain `similarity` search, supplying or omitting a
`score_threshold` yields the same configuration. -/
theorem get_retriever_inapplicable_args_ignored_witness :
    (RetrieverSearchType.similarity ≠ .similarity_score_threshold) ∧
      get_retriever (some 3) .similarity none none none =
        get_retriever (some 3) .similarity (some 1) none none :=
  ⟨by decide,
    ((get_retriever_inapplicable_args_ignored (some 3) .similarity none
          (some 1) none none none none).1
        (by decide)).1⟩

/-! ## C7 -/

theorem intercalate_go_append (x y s : String) (l : List String) :
    String.intercalate.go (x ++ y) s l = x ++ String.intercalate.go y s l := by
  induction l generalizing y with
  | nil => simp [String.intercalate.go]
  | cons a as ih =>
    simp only [String.intercalate.go]
    rw [String.append_assoc, String.append_assoc, ih, String.append_assoc y s a]

theorem intercalate_cons_cons (s a b : String) (l : List String) :
    String.intercalate s (a :: b :: l) =
      a ++ s ++ String.intercalate s (b :: l) := by
  show String.intercalate.go a s (b :: l) = a ++ s ++ String.intercalate.go b s l
  simp only [String.intercalate.go]
  rw [intercalate_go_append]

/-- C7: the context block is built by rendering each retrieved document as
`"Content: <text>\nSource: <source>"` and joining consecutive blocks with
exactly one blank line (two newline characters), in retrieved order: the empty
list yields the empty context, a single document yields its block, and a
document followed by a nonempty rest yields the document's block, the two
newlines, then the rest's context. -/
theorem format_docs_blocks :
    format_docs [] = some "" ∧
    (∀ (d : Document) (v : JVal), docSource d = some v →
      format_docs [d] =
        some ("Content: " ++ d.page_content ++ "\nSource: " ++ pyStr v)) ∧
    (∀ (d : Document) (v : JVal) (ds : List Document) (s : String),
      docSource d = some v → ds ≠ [] → format_docs ds = some s →
      format_docs (d :: ds) =
        some ("Content: " ++ d.page_content ++ "\nSource: " ++ pyStr v ++
          "\n\n" ++ s)) := by
  refine ⟨rfl, fun d v hv => ?_, fun d v ds s hv hne hs => ?_⟩
  · simp [format_docs, formatBlocks, hv, String.intercalate,
      String.intercalate.go]
  · obtain ⟨d', ds', rfl⟩ : ∃ d' ds', ds = d' :: ds' := by
      cases ds with
      | nil => exact absurd rfl hne
      | cons d' ds' => exact ⟨d', ds', rfl⟩
    cases hv' : docSource d' with
    | none => simp [format_docs, formatBlocks, hv'] at hs
    | some v' =>
      cases hbs : formatBlocks ds' with
      | none => simp [format_docs, formatBlocks, hv', hbs] at hs
      | some bs =>
        simp only [format_docs, formatBlocks, hv, hv', hbs,
          Option.map_some', Option.some.injEq] at hs ⊢
        rw [intercalate_cons_cons, hs]

/-- Witness for C7: two concrete documents are formatted into two blocks
joined by one blank line, in order. -/
theorem format_docs_blocks_witness :
    docSource ⟨"alpha", [("source", JVal.str "a.html")]⟩ =
        some (JVal.str "a.html") ∧
      ([(⟨"beta", [("source", JVal.str "b.html")]⟩ : Document)] ≠ []) ∧
      format_docs [⟨"beta", [("source", JVal.str "b.html")]⟩] =
        some "Content: beta\nSource: b.html" ∧
      format_docs
          [⟨"alpha", [("source", JVal.str "a.html")]⟩,
            ⟨"beta", [("source", JVal.str "b.html")]⟩] =
        some "Content: alpha\nSource: a.html\n\nContent: beta\nSource: b.html" := by
  refine ⟨rfl, by simp, rfl, ?_⟩
  exact format_docs_blocks.2.2 ⟨"alpha", [("source", JVal.str "a.html")]⟩
    (JVal.str "a.html") [⟨"beta", [("source", JVal.str "b.html")]⟩]
    "Content: beta\nSource: b.html" rfl (by simp) rfl

/-! ## C8 -/

theorem formatBlocks_isSome (l : List Document)
    (h : ∀ d ∈ l, (docSource d).isSome) : ∃ bs, formatBlocks l = some bs := by
  induction l with
  | nil => exact ⟨[], rfl⟩
  | cons d ds ih =>
    obtain ⟨v, hv⟩ := Option.isSome_iff_exists.mp (h d (by simp))
    obtain ⟨bs, hbs⟩ := ih (fun d hd => h d (by simp [hd]))
    exact ⟨("Content: " ++ d.page_content ++ "\nSource: " ++ pyStr v) :: bs,
      by simp [formatBlocks, hv, hbs]⟩

/-- C8: the answer produced by the composition pipeline carries as
`source_documents` exactly the ordered document list the retriever returned
for the question, together with the original question and the text the chat
model generated from the formatted context. -/
theorem get_rag_chain_source_documents (retriever : String → List Document)
    (chat_model : String → String) (q : String)
    (h : ∀ d ∈ retriever q, (docSource d).isSome) :
    ∃ ctx, format_docs (retriever q) = some ctx ∧
      get_rag_chain retriever chat_model q =
        some ⟨q, retriever q, chat_model (prompt_template q ctx)⟩ := by
  obtain ⟨bs, hbs⟩ := formatBlocks_isSome (retriever q) h
  exact ⟨String.intercalate "\n\n" bs, by simp [format_docs, hbs],
    by simp [get_rag_chain, rag_chain_from_docs, format_docs, hbs]⟩

/-- Witness for C8: a one-document retriever and a chat model that echoes its
prompt produce an answer whose source list is that document list. -/
theorem get_rag_chain_source_documents_witness :
    (∀ d ∈ (fun _ : String =>
        [(⟨"alpha", [("source", JVal.str "a.html")]⟩ : Document)]) "Q",
      (docSource d).isSome) ∧
    ∃ ctx,
      format_docs
          ((fun _ : String =>
            [(⟨"alpha", [("source", JVal.str "a.html")]⟩ : Document)]) "Q") =
        some ctx ∧
      get_rag_chain
          (fun _ : String =>
            [(⟨"alpha", [("source", JVal.str "a.html")]⟩ : Document)])
          (fun p => "ANS " ++ p) "Q" =
        some ⟨"Q", [⟨"alpha", [("source", JVal.str "a.html")]⟩],
          "ANS " ++ prompt_template "Q" ctx⟩ := by
  have h : ∀ d ∈ (fun _ : String =>
      [(⟨"alpha", [("source", JVal.str "a.html")]⟩ : Document)]) "Q",
      (docSource d).isSome := by
    intro d hd
    simp only [List.mem_singleton] at hd
    subst hd
    rfl
  exact ⟨h, by
    simpa using
      get_rag_chain_source_documents
        (fun _ : String =>
          [(⟨"alpha", [("source", JVal.str "a.html")]⟩ : Document)])
        (fun p => "ANS " ++ p) "Q" h⟩

/-! ## C5 -/

/-- C5: when `exist_ok` is not set and the collection already exists in the
persisted store, `create_db` fails with the precondition error and performs no
store operation whatsoever; the result is the same for every document batch
and every collision policy, because the gate is evaluated before any document
is loaded and independently of the per-document collision check. -/
theorem create_db_exist_ok_gate (db_dir_exists : Bool)
    (collection_names : List String) (collection : String) (st : Store)
    (h1 : db_dir_exists = true) (h2 : collection ∈ collection_names) :
    ∀ (splitter : Document → List Document) (docs : List Document)
      (on_match : OnMatchAction),
      create_db false db_dir_exists collection_names collection splitter docs
          on_match st = ⟨some .collectionExists, st, []⟩ := by
  intro splitter docs on_match
  unfold create_db
  rw [if_pos]
  exact ⟨by simp, by simp [h1], h2⟩

/-! ## Store-level helper lemmas -/

theorem mem_sortSources (l : List (Option JVal)) (s : Option JVal) :
    s ∈ sortSources l ↔ s ∈ l :=
  (List.perm_insertionSort _ _).mem_iff

theorem mem_indexedSources (st : Store) (s : Option JVal) :
    s ∈ indexedSources st ↔ s ∈ st.entries.map entrySource := by
  unfold indexedSources
  rw [mem_sortSources, List.mem_dedup]

theorem entrySource_mkEntry (id : String) (d : Document) :
    entrySource (mkEntry id d) = docSource d := rfl

theorem add_documents_append (st : Store) (pairs : List (String × Document))
    (hfresh : ∀ p ∈ pairs, p.1 ∉ st.entries.map Entry.id)
    (hnd : (pairs.map Prod.fst).Nodup) :
    add_documents st pairs =
      ⟨st.entries ++ pairs.map (fun p => mkEntry p.1 p.2)⟩ := by
  induction pairs generalizing st with
  | nil => simp [add_documents]
  | cons p ps ih =>
    obtain ⟨id, d⟩ := p
    have hany : st.entries.any (fun e => e.id == id) = false := by
      rw [List.any_eq_false]
      intro e he
      simp only [beq_iff_eq]
      intro hEq
      exact hfresh (id, d) (by simp) (hEq ▸ List.mem_map_of_mem Entry.id he)
    have step : upsert1 st id d = ⟨st.entries ++ [mkEntry id d]⟩ := by
      simp [upsert1, hany]
    have hrec : add_documents st ((id, d) :: ps) =
        add_documents (upsert1 st id d) ps := by
      simp [add_documents]
    rw [hrec, step, ih]
    · simp
    · intro q hq
      simp only [List.map_append, List.mem_append]
      rintro (hold | hnew)
      · exact hfresh q (by simp [hq]) hold
      · simp only [List.map_cons, List.map_nil, List.mem_singleton, mkEntry] at hnew
        have h1 : q.1 ∈ ps.map Prod.fst := List.mem_map_of_mem Prod.fst hq
        rw [hnew] at h1
        exact (List.nodup_cons.mp hnd).1 h1
    · exact (List.nodup_cons.mp hnd).2

theorem sublist_flatMap {α β : Type} {l1 l2 : List α} (f : α → List β)
    (h : l1.Sublist l2) : (l1.flatMap f).Sublist (l2.flatMap f) := by
  induction h with
  | slnil => simp
  | cons a _ ih =>
    rw [List.flatMap_cons]
    exact ih.trans (List.sublist_append_right _ _)
  | cons₂ a _ ih =>
    rw [List.flatMap_cons, List.flatMap_cons]
    exact ih.append_left _

theorem zip_hash_self (l : List Document) :
    (l.map stable_hash).zip l = l.map (fun c => (stable_hash c, c)) := by
  induction l with
  | nil => rfl
  | cons c cs ih => simp [ih]

theorem create_db_gate_pos {exist_ok db_dir_exists : Bool}
    {collection_names : List String} {collection : String}
    (splitter : Document → List Document) (docs : List Document)
    (on_match : OnMatchAction) (st : Store)
    (hgate : ¬exist_ok ∧ db_dir_exists ∧ collection ∈ collection_names) :
    create_db exist_ok db_dir_exists collection_names collection splitter docs
        on_match st = ⟨some .collectionExists, st, []⟩ := by
  rw [create_db, if_pos hgate]

theorem create_db_gate_neg_ignore {exist_ok db_dir_exists : Bool}
    {collection_names : List String} {collection : String}
    (splitter : Document → List Document) (docs : List Document) (st : Store)
    (hgate : ¬(¬exist_ok ∧ db_dir_exists ∧ collection ∈ collection_names)) :
    create_db exist_ok db_dir_exists collection_names collection splitter docs
        .ignore st =
      splitAndAdd splitter
        (docs.filter (fun d => decide (docSource d ∉ indexedSources st))) st
        [] := by
  rw [create_db, if_neg hgate]

theorem create_db_gate_neg_replace {exist_ok db_dir_exists : Bool}
    {collection_names : List String} {collection : String}
    (splitter : Document → List Document) (docs : List Document) (st : Store)
    (hgate : ¬(¬exist_ok ∧ db_dir_exists ∧ collection ∈ collection_names)) :
    create_db exist_ok db_dir_exists collection_names collection splitter docs
        .replace st =
      splitAndAdd splitter docs
        (deleteIds st
          ((st.entries.filter
            (fun e => decide (entrySource e ∈ docs.map docSource))).map Entry.id))
        [.delete
          ((st.entries.filter
            (fun e => decide (entrySource e ∈ docs.map docSource))).map Entry.id)] := by
  rw [create_db, if_neg hgate]

theorem create_db_gate_neg_fail {exist_ok db_dir_exists : Bool}
    {collection_names : List String} {collection : String}
    (splitter : Document → List Document) (docs : List Document) (st : Store)
    (hgate : ¬(¬exist_ok ∧ db_dir_exists ∧ collection ∈ collection_names)) :
    create_db exist_ok db_dir_exists collection_names collection splitter docs
        .fail st =
      (if (((docs.map docSource).filter
            (fun s => decide (s ∈ indexedSources st))).dedup).isEmpty then
        splitAndAdd splitter docs st []
      else
        ⟨some (.alreadyIndexed
          (sortSources
            (((docs.map docSource).filter
              (fun s => decide (s ∈ indexedSources st))).dedup))), st, []⟩) := by
  rw [create_db, if_neg hgate]

/-! ## C3 -/

/-- C3: under policy FAIL with at least one already indexed source among the
loaded documents, `create_db` raises the collision error carrying exactly the
offending sources (those that are both a loaded document's source and an
indexed source), performs no store operation at all, and leaves the store
unchanged. -/
theorem create_db_fail_atomic (exist_ok db_dir_exists : Bool)
    (collection_names : List String) (collection : String)
    (splitter : Document → List Document) (docs : List Document) (st : Store)
    (hgate : ¬(¬exist_ok ∧ db_dir_exists ∧ collection ∈ collection_names))
    (hcol : ∃ d ∈ docs, docSource d ∈ st.entries.map entrySource) :
    ∃ offending,
      create_db exist_ok db_dir_exists collection_names collection splitter
          docs .fail st = ⟨some (.alreadyIndexed offending), st, []⟩ ∧
        ∀ s, s ∈ offending ↔
          s ∈ docs.map docSource ∧ s ∈ st.entries.map entrySource := by
  rw [create_db_gate_neg_fail splitter docs st hgate]
  have hmem : ∀ s, s ∈ ((docs.map docSource).filter
      (fun s => decide (s ∈ indexedSources st))).dedup ↔
      s ∈ docs.map docSource ∧ s ∈ st.entries.map entrySource := by
    intro s
    rw [List.mem_dedup, List.mem_filter, decide_eq_true_eq, mem_indexedSources]
  have hne : (((docs.map docSource).filter
      (fun s => decide (s ∈ indexedSources st))).dedup).isEmpty = false := by
    rw [List.isEmpty_eq_false]
    obtain ⟨d, hd, hs⟩ := hcol
    intro hnil
    exact absurd ((hmem (docSource d)).mpr ⟨List.mem_map_of_mem docSource hd, hs⟩)
      (hnil ▸ List.not_mem_nil _)
  rw [if_neg (by simp [hne])]
  refine ⟨_, rfl, fun s => ?_⟩
  rw [mem_sortSources, hmem]

/-- Witness for C3: re-submitting a document whose source is indexed already
under FAIL raises the collision error and leaves the one-entry store
untouched. -/
theorem create_db_fail_atomic_witness :
    (¬(¬(true : Bool) ∧ (true : Bool) ∧ "docs" ∈ ["docs"]) ∧
      ∃ d ∈ [(⟨"text", [("source", JVal.str "doc.html")]⟩ : Document)],
        docSource d ∈
          (Store.mk [⟨"id0", "old", [("source", JVal.str "doc.html")]⟩]).entries.map
            entrySource) ∧
    ∃ offending,
      create_db true true ["docs"] "docs" (fun d => [d])
          [⟨"text", [("source", JVal.str "doc.html")]⟩] .fail
          ⟨[⟨"id0", "old", [("source", JVal.str "doc.html")]⟩]⟩ =
        ⟨some (.alreadyIndexed offending),
          ⟨[⟨"id0", "old", [("source", JVal.str "doc.html")]⟩]⟩, []⟩ ∧
        ∀ s, s ∈ offending ↔
          s ∈ [(⟨"text", [("source", JVal.str "doc.html")]⟩ : Document)].map docSource ∧
            s ∈ (Store.mk [⟨"id0", "old", [("source", JVal.str "doc.html")]⟩]).entries.map
              entrySource := by
  refine
    ⟨⟨by simp,
        ⟨⟨"text", [("source", JVal.str "doc.html")]⟩, by simp,
          by simp [docSource, entrySource, lookupLast]⟩⟩, ?_⟩
  exact create_db_fail_atomic true true ["docs"] "docs" (fun d => [d]) _ _
    (by simp)
    ⟨⟨"text", [("source", JVal.str "doc.html")]⟩, by simp,
      by simp [docSource, entrySource, lookupLast]⟩

/-! ## C10 -/

/-- C10: when the batch left after applying the collision policy is empty —
for instance under IGNORE when every loaded source is already indexed, or
when the loader yields nothing — `create_db` issues no add and no persist
call and leaves the store's entries unchanged. -/
theorem create_db_empty_batch_noop (exist_ok db_dir_exists : Bool)
    (collection_names : List String) (collection : String)
    (splitter : Document → List Document) (docs : List Document)
    (on_match : OnMatchAction) (st : Store)
    (h : postPolicyDocs docs on_match st = []) :
    (create_db exist_ok db_dir_exists collection_names collection splitter
        docs on_match st).store = st ∧
    (∀ ids, StoreOp.add ids ∉
      (create_db exist_ok db_dir_exists collection_names collection splitter
        docs on_match st).ops) ∧
    StoreOp.persist ∉
      (create_db exist_ok db_dir_exists collection_names collection splitter
        docs on_match st).ops := by
  by_cases hgate : ¬exist_ok ∧ db_dir_exists ∧ collection ∈ collection_names
  · rw [create_db, if_pos hgate]
    simp
  · cases on_match with
    | ignore =>
      rw [create_db_gate_neg_ignore splitter docs st hgate]
      rw [postPolicyDocs] at h
      rw [h]
      simp [splitAndAdd]
    | replace =>
      rw [postPolicyDocs] at h
      subst h
      rw [create_db_gate_neg_replace splitter [] st hgate]
      simp [splitAndAdd, deleteIds]
    | fail =>
      rw [postPolicyDocs] at h
      subst h
      rw [create_db_gate_neg_fail splitter [] st hgate]
      simp [splitAndAdd]

/-- Witness for C10: under IGNORE, a batch whose only document is already
indexed is emptied by the policy, and the run leaves the store unchanged with
no add and no persist call. -/
theorem create_db_empty_batch_noop_witness :
    postPolicyDocs [(⟨"new text", [("source", JVal.str "doc.html")]⟩ : Document)]
        .ignore ⟨[⟨"id0", "old", [("source", JVal.str "doc.html")]⟩]⟩ = [] ∧
    (create_db true true [] "docs" (fun d => [d])
        [⟨"new text", [("source", JVal.str "doc.html")]⟩] .ignore
        ⟨[⟨"id0", "old", [("source", JVal.str "doc.html")]⟩]⟩).store =
      ⟨[⟨"id0", "old", [("source", JVal.str "doc.html")]⟩]⟩ := by
  have h : postPolicyDocs
      [(⟨"new text", [("source", JVal.str "doc.html")]⟩ : Document)] .ignore
      ⟨[⟨"id0", "old", [("source", JVal.str "doc.html")]⟩]⟩ = [] := by decide
  exact ⟨h,
    (create_db_empty_batch_noop true true [] "docs" (fun d => [d]) _ .ignore _
        h).1⟩

/-! ## C4 -/

/-- C4: under policy REPLACE, the run first issues a delete whose id list
covers every pre-existing entry whose source equals the batch document `d`'s
source (so all of them are removed from the store), and afterwards the entries
carrying that source are exactly the newly computed chunks of the batch with
that source, stored under their `stable_hash` identities, in order.  An old
entry of that source can occur in the post state only by being literally
re-created as one of the new chunk entries — ids may be reused across the
delete, as they are when an unchanged leading chunk hashes to its old id.  The
freshness hypothesis only concerns entries of sources outside the batch (the
ones the delete keeps); chunk ids are free to collide with deleted ids. -/
theorem create_db_replace_full_replace (exist_ok db_dir_exists : Bool)
    (collection_names : List String) (collection : String)
    (splitter : Document → List Document) (docs : List Document) (st : Store)
    (d : Document)
    (hgate : ¬(¬exist_ok ∧ db_dir_exists ∧ collection ∈ collection_names))
    (hd : d ∈ docs)
    (hfresh : ∀ d' ∈ docs, ∀ c ∈ splitter d',
      stable_hash c ∉
        (st.entries.filter
          (fun e => decide (entrySource e ∉ docs.map docSource))).map Entry.id)
    (hnodup : ((docs.flatMap splitter).map stable_hash).Nodup) :
    ((create_db exist_ok db_dir_exists collection_names collection splitter
        docs .replace st).ops.head? =
      some (.delete ((st.entries.filter
        (fun e => decide (entrySource e ∈ docs.map docSource))).map Entry.id)) ∧
      ∀ e ∈ st.entries, entrySource e = docSource d →
        e.id ∈ (st.entries.filter
          (fun e => decide (entrySource e ∈ docs.map docSource))).map Entry.id) ∧
    (∀ e ∈ st.entries, entrySource e = docSource d →
      e ∈ (create_db exist_ok db_dir_exists collection_names collection
        splitter docs .replace st).store.entries →
      ∃ c ∈ docs.flatMap splitter, e = mkEntry (stable_hash c) c) ∧
    ((create_db exist_ok db_dir_exists collection_names collection splitter
        docs .replace st).store.entries.filter
      (fun e => decide (entrySource e = docSource d))) =
      ((docs.flatMap splitter).filter
        (fun c => decide (docSource c = docSource d))).map
        (fun c => mkEntry (stable_hash c) c) ∧
    ((create_db exist_ok db_dir_exists collection_names collection splitter
        docs .replace st).store.entries.filter
      (fun e => decide (entrySource e = docSource d))).map Entry.id =
      ((docs.flatMap splitter).filter
        (fun c => decide (docSource c = docSource d))).map stable_hash := by
  rw [create_db_gate_neg_replace splitter docs st hgate]
  set del_ids := (st.entries.filter
    (fun e => decide (entrySource e ∈ docs.map docSource))).map Entry.id
    with hdel
  have hdocsne : docs.isEmpty = false := by
    rw [List.isEmpty_eq_false]
    intro hnil
    rw [hnil] at hd
    exact List.not_mem_nil d hd
  rw [splitAndAdd, if_neg (by simp [hdocsne]), zip_hash_self]
  have hdelmem : ∀ e ∈ st.entries, entrySource e ∈ docs.map docSource →
      e.id ∈ del_ids := by
    intro e he hse
    rw [hdel]
    exact List.mem_map_of_mem Entry.id
      (List.mem_filter.mpr ⟨he, by rw [decide_eq_true_eq]; exact hse⟩)
  have hsurvive : ∀ e ∈ (deleteIds st del_ids).entries,
      e ∈ st.entries.filter
        (fun e => decide (entrySource e ∉ docs.map docSource)) := by
    intro e he
    obtain ⟨he_st, hid⟩ := List.mem_filter.mp he
    rw [decide_eq_true_eq] at hid
    refine List.mem_filter.mpr ⟨he_st, ?_⟩
    rw [decide_eq_true_eq]
    exact fun hsrc => hid (hdelmem e he_st hsrc)
  have happend : add_documents (deleteIds st del_ids)
      ((docs.flatMap splitter).map (fun c => (stable_hash c, c))) =
      ⟨(deleteIds st del_ids).entries ++
        (docs.flatMap splitter).map (fun c => mkEntry (stable_hash c) c)⟩ := by
    rw [add_documents_append]
    · rw [List.map_map]
      rfl
    · intro p hp
      simp only [List.mem_map] at hp
      obtain ⟨c, hc, rfl⟩ := hp
      intro hmem
      obtain ⟨d', hd', hc'⟩ := List.mem_flatMap.mp hc
      simp only [List.mem_map] at hmem
      obtain ⟨e, he, heq⟩ := hmem
      exact hfresh d' hd' c hc'
        (heq ▸ List.mem_map_of_mem Entry.id (hsurvive e he))
    · rw [List.map_map]
      exact hnodup
  rw [happend]
  have hst1_nosrc : ∀ e ∈ (deleteIds st del_ids).entries,
      ¬entrySource e = docSource d := by
    intro e he hse
    have h1 := List.mem_filter.mp (hsurvive e he)
    rw [decide_eq_true_eq] at h1
    exact h1.2 (hse ▸ List.mem_map_of_mem docSource hd)
  have hfilter : ((deleteIds st del_ids).entries ++
      (docs.flatMap splitter).map (fun c => mkEntry (stable_hash c) c)).filter
      (fun e => decide (entrySource e = docSource d)) =
      ((docs.flatMap splitter).filter
        (fun c => decide (docSource c = docSource d))).map
        (fun c => mkEntry (stable_hash c) c) := by
    rw [List.filter_append,
      List.filter_eq_nil_iff.mpr (fun e he => by simpa using hst1_nosrc e he),
      List.nil_append, List.filter_map]
    rfl
  refine ⟨⟨rfl, fun e he hse => hdelmem e he
      (hse ▸ List.mem_map_of_mem docSource hd)⟩, ?_, hfilter, ?_⟩
  · intro e he hse hmem
    simp only [List.mem_append] at hmem
    rcases hmem with h1 | h2
    · exact absurd hse (hst1_nosrc e h1)
    · simp only [List.mem_map] at h2
      obtain ⟨c, hc, heq⟩ := h2
      exact ⟨c, hc, heq.symm⟩
  · rw [hfilter, List.map_map]
    rfl

/-- Witness for C4: the canonical replace of an already indexed source.  The
store holds one stale entry for `a.html` whose id is the hash of the old
chunk; the re-indexed document has the same metadata (hence the chunk reuses
the old id) but new text.  The run deletes the stale entry and the `a.html`
entries afterwards are exactly the one new chunk entry. -/
theorem create_db_replace_full_replace_witness :
    (∀ d' ∈ [(⟨"new text", [("source", JVal.str "a.html")]⟩ : Document)],
      ∀ c ∈ [d'],
      stable_hash c ∉
        ((Store.mk [mkEntry
            (stable_hash ⟨"old text", [("source", JVal.str "a.html")]⟩)
            ⟨"old text", [("source", JVal.str "a.html")]⟩]).entries.filter
          (fun e => decide (entrySource e ∉
            [(⟨"new text", [("source", JVal.str "a.html")]⟩ : Document)].map
              docSource))).map Entry.id) ∧
    ((create_db true true [] "c" (fun x => [x])
        [⟨"new text", [("source", JVal.str "a.html")]⟩] .replace
        ⟨[mkEntry (stable_hash ⟨"old text", [("source", JVal.str "a.html")]⟩)
          ⟨"old text", [("source", JVal.str "a.html")]⟩]⟩).store.entries.filter
      (fun e => decide (entrySource e =
        docSource ⟨"new text", [("source", JVal.str "a.html")]⟩))) =
      (([(⟨"new text", [("source", JVal.str "a.html")]⟩ : Document)].flatMap
          (fun x => [x])).filter
        (fun c => decide (docSource c =
          docSource ⟨"new text", [("source", JVal.str "a.html")]⟩))).map
        (fun c => mkEntry (stable_hash c) c) ∧
    (∀ e ∈ (Store.mk [mkEntry
          (stable_hash ⟨"old text", [("source", JVal.str "a.html")]⟩)
          ⟨"old text", [("source", JVal.str "a.html")]⟩]).entries,
      entrySource e = docSource ⟨"new text", [("source", JVal.str "a.html")]⟩ →
      e ∈ (create_db true true [] "c" (fun x => [x])
        [⟨"new text", [("source", JVal.str "a.html")]⟩] .replace
        ⟨[mkEntry (stable_hash ⟨"old text", [("source", JVal.str "a.html")]⟩)
          ⟨"old text", [("source", JVal.str "a.html")]⟩]⟩).store.entries →
      ∃ c ∈ [(⟨"new text", [("source", JVal.str "a.html")]⟩ : Document)].flatMap
          (fun x => [x]),
        e = mkEntry (stable_hash c) c) := by
  have hfresh : ∀ d' ∈ [(⟨"new text", [("source", JVal.str "a.html")]⟩ : Document)],
      ∀ c ∈ [d'],
      stable_hash c ∉
        ((Store.mk [mkEntry
            (stable_hash ⟨"old text", [("source", JVal.str "a.html")]⟩)
            ⟨"old text", [("source", JVal.str "a.html")]⟩]).entries.filter
          (fun e => decide (entrySource e ∉
            [(⟨"new text", [("source", JVal.str "a.html")]⟩ : Document)].map
              docSource))).map Entry.id := by
    intro d' hd' c hc
    have hflt : ((Store.mk [mkEntry
        (stable_hash ⟨"old text", [("source", JVal.str "a.html")]⟩)
        ⟨"old text", [("source", JVal.str "a.html")]⟩]).entries.filter
        (fun e => decide (entrySource e ∉
          [(⟨"new text", [("source", JVal.str "a.html")]⟩ : Document)].map
            docSource))) = [] := by
      rw [List.filter_eq_nil_iff]
      intro e he
      rw [List.mem_singleton] at he
      subst he
      simp [entrySource, docSource, mkEntry, lookupLast]
    rw [hflt]
    simp
  have h := create_db_replace_full_replace true true [] "c" (fun x => [x])
    [⟨"new text", [("source", JVal.str "a.html")]⟩]
    ⟨[mkEntry (stable_hash ⟨"old text", [("source", JVal.str "a.html")]⟩)
      ⟨"old text", [("source", JVal.str "a.html")]⟩]⟩
    ⟨"new text", [("source", JVal.str "a.html")]⟩
    (by simp) (by simp) hfresh (by simp)
  exact ⟨hfresh, h.2.2.1, h.2.1⟩

/-! ## C2 -/

/-- C2: indexing the same document set twice under policy IGNORE is
idempotent: the second run drops every document whose source the first run
indexed, and the store after the second run equals the store after the first
(in particular it has the same entry ids and entry count).  The hypotheses
state that the splitter preserves each document's source on its chunks, that
the chunk ids are fresh for the initial store, and that distinct chunks
receive distinct ids. -/
theorem create_db_ignore_idempotent (exist_ok db_dir_exists : Bool)
    (collection_names : List String) (collection : String)
    (splitter : Document → List Document) (docs : List Document) (st0 : Store)
    (hsrc : ∀ d ∈ docs, ∀ c ∈ splitter d, docSource c = docSource d)
    (hfresh : ∀ d ∈ docs, ∀ c ∈ splitter d,
      stable_hash c ∉ st0.entries.map Entry.id)
    (hnodup : ((docs.flatMap splitter).map stable_hash).Nodup) :
    (create_db exist_ok db_dir_exists collection_names collection splitter
        docs .ignore
        (create_db exist_ok db_dir_exists collection_names collection splitter
          docs .ignore st0).store).store =
      (create_db exist_ok db_dir_exists collection_names collection splitter
        docs .ignore st0).store := by
  by_cases hgate : ¬exist_ok ∧ db_dir_exists ∧ collection ∈ collection_names
  · rw [create_db_gate_pos splitter docs .ignore st0 hgate]
    show (create_db exist_ok db_dir_exists collection_names collection splitter
      docs .ignore st0).store = st0
    rw [create_db_gate_pos splitter docs .ignore st0 hgate]
  · rw [create_db_gate_neg_ignore splitter docs st0 hgate]
    set docs1 := docs.filter
      (fun d => decide (docSource d ∉ indexedSources st0)) with hdocs1
    have hdocs1_sub : docs1.Sublist docs := List.filter_sublist _
    by_cases hA : docs1.isEmpty
    · rw [splitAndAdd, if_pos hA]
      rw [create_db_gate_neg_ignore splitter docs st0 hgate, ← hdocs1,
        splitAndAdd, if_pos hA]
    · rw [splitAndAdd, if_neg hA, zip_hash_self]
      set splits1 := docs1.flatMap splitter with hsplits1
      have hsplits1_sub : (splits1.map stable_hash).Sublist
          ((docs.flatMap splitter).map stable_hash) :=
        (sublist_flatMap splitter hdocs1_sub).map stable_hash
      have happend : add_documents st0
          (splits1.map (fun c => (stable_hash c, c))) =
          ⟨st0.entries ++ splits1.map (fun c => mkEntry (stable_hash c) c)⟩ := by
        rw [add_documents_append]
        · rw [List.map_map]
          rfl
        · intro p hp
          simp only [List.mem_map] at hp
          obtain ⟨c, hc, rfl⟩ := hp
          obtain ⟨d', hd', hc'⟩ := List.mem_flatMap.mp hc
          exact hfresh d' (hdocs1_sub.subset hd') c hc'
        · rw [List.map_map]
          exact hnodup.sublist hsplits1_sub
      rw [happend]
      set st1 : Store :=
        ⟨st0.entries ++ splits1.map (fun c => mkEntry (stable_hash c) c)⟩
        with hst1
      rw [create_db_gate_neg_ignore splitter docs st1 hgate]
      have hempty2 : ∀ d' ∈ docs.filter
          (fun d => decide (docSource d ∉ indexedSources st1)),
          splitter d' = [] := by
        intro d' hd2
        obtain ⟨hd_docs, hflt⟩ := List.mem_filter.mp hd2
        rw [decide_eq_true_eq, mem_indexedSources] at hflt
        cases hc : splitter d' with
        | nil => rfl
        | cons c cs =>
          exfalso
          have hnot0 : docSource d' ∉ indexedSources st0 := by
            rw [mem_indexedSources]
            intro hmem0
            exact hflt (by
              rw [hst1]
              simp only [List.map_append, List.mem_append]
              exact Or.inl hmem0)
          have hd1 : d' ∈ docs1 := by
            rw [hdocs1]
            exact List.mem_filter.mpr ⟨hd_docs, by simpa using hnot0⟩
          have hcsplits : c ∈ splits1 :=
            List.mem_flatMap.mpr ⟨d', hd1, by rw [hc]; simp⟩
          refine hflt ?_
          rw [hst1]
          simp only [List.map_append, List.mem_append, List.map_map]
          right
          have hval : entrySource (mkEntry (stable_hash c) c) = docSource d' := by
            rw [entrySource_mkEntry]
            exact hsrc d' hd_docs c (by rw [hc]; simp)
          rw [← hval]
          exact List.mem_map_of_mem _ hcsplits
      have hsplits2 : (docs.filter
          (fun d => decide (docSource d ∉ indexedSources st1))).flatMap
          splitter = [] :=
        List.flatMap_eq_nil_iff.mpr hempty2
      by_cases h2 : (docs.filter
          (fun d => decide (docSource d ∉ indexedSources st1))).isEmpty
      · rw [splitAndAdd, if_pos h2]
      · rw [splitAndAdd, if_neg h2, hsplits2]
        rfl

/-- Witness for C2: re-running a one-document IGNORE indexing run on an
initially empty store reproduces the first run's store exactly. -/
theorem create_db_ignore_idempotent_witness :
    (∀ d ∈ [(⟨"t", [("source", JVal.str "a.html")]⟩ : Document)],
      ∀ c ∈ [d], docSource c = docSource d) ∧
    (create_db true true [] "c" (fun x => [x])
        [⟨"t", [("source", JVal.str "a.html")]⟩] .ignore
        (create_db true true [] "c" (fun x => [x])
          [⟨"t", [("source", JVal.str "a.html")]⟩] .ignore ⟨[]⟩).store).store =
      (create_db true true [] "c" (fun x => [x])
        [⟨"t", [("source", JVal.str "a.html")]⟩] .ignore ⟨[]⟩).store := by
  refine ⟨by simp, ?_⟩
  exact create_db_ignore_idempotent true true [] "c" (fun x => [x])
    [⟨"t", [("source", JVal.str "a.html")]⟩] ⟨[]⟩
    (by intro d _ c hc; rw [List.mem_singleton] at hc; rw [hc])
    (by simp) (by simp)

/-- Witness for C5: with the collection present and `exist_ok` unset, a
concrete run fails with the precondition error and leaves the store alone. -/
theorem create_db_exist_ok_gate_witness :
    (true : Bool) = true ∧ "docs" ∈ ["docs"] ∧
      create_db false true ["docs"] "docs" (fun d => [d])
          [⟨"t", [("source", JVal.str "doc.html")]⟩] .fail ⟨[]⟩ =
        ⟨some .collectionExists, ⟨[]⟩, []⟩ :=
  ⟨rfl, by simp,
    create_db_exist_ok_gate true ["docs"] "docs" ⟨[]⟩ rfl (by simp)
      (fun d => [d]) [⟨"t", [("source", JVal.str "doc.html")]⟩] .fail⟩

end RagDemo
